import Mathlib

/-!
Verification of the TouchHarp touch-sensor and pluck-string core.

Shallow embedding of src/TouchPin.cpp, src/TouchPin.h, src/HarpString.cpp and
src/HarpString.h. Conventions of the embedding:

* `unsigned int` / `unsigned long` quantities (readings, running sum, ring
  buffer contents, timestamps) are modelled as `Nat`. The spec clock is
  monotonically non-decreasing millisecond values, so the unsigned machine
  arithmetic performed by the code (`millis() - _on_time`,
  `_last_sample_time + _sample_period`, and the running-sum maintenance,
  whose subtraction always removes a value currently contained in the sum)
  never wraps in the executions the spec describes; on that domain `Nat`
  arithmetic agrees with the machine arithmetic.
* The external collaborators are parameters: `millis()` becomes the `now`
  argument of `update`, and the raw value delivered by `touchRead(_pin)`
  becomes the `raw` argument. `TouchPin.update` additionally returns a
  `Bool` recording whether the external hardware read was requested.
* `usbMIDI.sendNoteOn` / `sendNoteOff` and the diagnostic print of the
  default switch branch are modelled as an emitted event list.
* `_state` is declared `boolean` in HarpString.h; on the Teensy core this
  is a byte-sized integer typedef, so it holds the values 1, 2, 3 of the
  STATE_* macros and is modelled as `Nat`.
* The sketch objects have static storage duration (spec: one instance per
  string, constructed once at startup, static lifetime), so the `_samples`
  member array is zero-initialized before the constructor body runs; the
  constructor model therefore starts from a zero-filled ring buffer.
-/

namespace TouchHarp

/-- SAMPLE_BUFFER_SIZE from TouchPin.h: how many samples to average. -/
def SAMPLE_BUFFER_SIZE : Nat := 10

/-- DEFAULT_TOUCH_THRESHOLD from TouchPin.h. -/
def DEFAULT_TOUCH_THRESHOLD : Nat := 5000

/-- DEFAULT_STRING_VIBRATION_DURATION from HarpString.h. -/
def DEFAULT_STRING_VIBRATION_DURATION : Nat := 2000

/-- STATE_IDLE from HarpString.h. -/
def STATE_IDLE : Nat := 1

/-- STATE_ARMED from HarpString.h. -/
def STATE_ARMED : Nat := 2

/-- STATE_SOUNDING from HarpString.h. -/
def STATE_SOUNDING : Nat := 3

/-- State of one TouchPin object (the data members of class TouchPin). -/
structure TouchPin where
  pin : Int
  sample_period : Nat
  last_sample_time : Nat
  samples : List Nat
  index : Nat
  sum : Nat
  touch_threshold : Nat
  select_line : Int
  deriving DecidableEq

/-- TouchPin::TouchPin(int, unsigned long): the two-argument constructor
(select_line set to -1); the member array starts zero-filled (static
storage duration of the sketch objects). -/
def TouchPin.init (pin : Int) (sample_period : Nat) : TouchPin :=
  { pin := pin
    sample_period := sample_period
    last_sample_time := 0
    samples := List.replicate SAMPLE_BUFFER_SIZE 0
    index := 0
    sum := 0
    touch_threshold := DEFAULT_TOUCH_THRESHOLD
    select_line := -1 }

/-- TouchPin::TouchPin(int, unsigned long, unsigned int): the constructor
taking a multiplexer select line. -/
def TouchPin.initSel (pin : Int) (sample_period : Nat) (select_line : Nat) : TouchPin :=
  { pin := pin
    sample_period := sample_period
    last_sample_time := 0
    samples := List.replicate SAMPLE_BUFFER_SIZE 0
    index := 0
    sum := 0
    touch_threshold := DEFAULT_TOUCH_THRESHOLD
    select_line := (select_line : Int) }

/-- TouchPin::update(). `now` is the value of millis(), `raw` the value
touchRead(_pin) would deliver. The returned Bool records whether the
sample branch was taken, i.e. whether the external read was requested.
The multiplexer digitalWrite calls touch no object state and are out of
scope (spec section 6). -/
def TouchPin.update (s : TouchPin) (now raw : Nat) : TouchPin × Bool :=
  if now > s.last_sample_time + s.sample_period then
    ({ s with
        last_sample_time := now
        samples := s.samples.set s.index raw
        sum := s.sum - s.samples.getD s.index 0 + raw
        index := (s.index + 1) % SAMPLE_BUFFER_SIZE }, true)
  else
    (s, false)

/-- TouchPin::value(): the running average. -/
def TouchPin.value (s : TouchPin) : Nat :=
  s.sum / SAMPLE_BUFFER_SIZE

/-- TouchPin::touching(). -/
def TouchPin.touching (s : TouchPin) : Bool :=
  decide (TouchPin.value s > s.touch_threshold)

/-- TouchPin::set_touch_threshold(unsigned int). -/
def TouchPin.set_touch_threshold (s : TouchPin) (touch_threshold : Nat) : TouchPin :=
  { s with touch_threshold := touch_threshold }

/-- The TouchPin states reachable from a constructor by any interleaving of
update calls (with arbitrary clock values and raw readings) and threshold
changes. -/
inductive TouchPin.Reach : TouchPin → Prop where
  | init (pin : Int) (sample_period : Nat) :
      TouchPin.Reach (TouchPin.init pin sample_period)
  | initSel (pin : Int) (sample_period : Nat) (select_line : Nat) :
      TouchPin.Reach (TouchPin.initSel pin sample_period select_line)
  | step (s : TouchPin) (now raw : Nat) :
      TouchPin.Reach s → TouchPin.Reach (TouchPin.update s now raw).1
  | setThreshold (s : TouchPin) (t : Nat) :
      TouchPin.Reach s → TouchPin.Reach (TouchPin.set_touch_threshold s t)

/-- Structural invariant of the ring buffer: fixed length, in-range write
index, and the incrementally maintained sum equal to the buffer total. -/
def TouchPin.Inv (s : TouchPin) : Prop :=
  s.samples.length = SAMPLE_BUFFER_SIZE ∧
  s.index < SAMPLE_BUFFER_SIZE ∧
  s.sum = s.samples.sum

lemma getD_le_sum (l : List Nat) (i : Nat) : l.getD i 0 ≤ l.sum := by
  induction l generalizing i with
  | nil => simp [List.getD]
  | cons a t ih =>
    cases i with
    | zero => simp [List.getD]
    | succ j =>
      have := ih j
      simp only [List.getD_cons_succ, List.sum_cons]
      omega

lemma sum_set_add (l : List Nat) (i v : Nat) (h : i < l.length) :
    (l.set i v).sum + l.getD i 0 = l.sum + v := by
  induction l generalizing i with
  | nil => simp at h
  | cons a t ih =>
    cases i with
    | zero => simp [List.getD]; omega
    | succ j =>
      have hj : j < t.length := by simpa using h
      have := ih j hj
      simp only [List.set_cons_succ, List.sum_cons, List.getD_cons_succ]
      omega

lemma TouchPin.inv_init (pin : Int) (sample_period : Nat) :
    TouchPin.Inv (TouchPin.init pin sample_period) := by
  refine ⟨?_, ?_, ?_⟩ <;> simp [TouchPin.init, TouchPin.Inv, SAMPLE_BUFFER_SIZE]

lemma TouchPin.inv_initSel (pin : Int) (sample_period : Nat) (select_line : Nat) :
    TouchPin.Inv (TouchPin.initSel pin sample_period select_line) := by
  refine ⟨?_, ?_, ?_⟩ <;> simp [TouchPin.initSel, TouchPin.Inv, SAMPLE_BUFFER_SIZE]

lemma TouchPin.inv_update (s : TouchPin) (now raw : Nat) (h : TouchPin.Inv s) :
    TouchPin.Inv (TouchPin.update s now raw).1 := by
  obtain ⟨hlen, hidx, hsum⟩ := h
  unfold TouchPin.update
  split
  · refine ⟨?_, ?_, ?_⟩
    · simpa using hlen
    · exact Nat.mod_lt _ (by simp [SAMPLE_BUFFER_SIZE])
    · have hlt : s.index < s.samples.length := by omega
      have hset := sum_set_add s.samples s.index raw hlt
      have hle := getD_le_sum s.samples s.index
      simp only
      omega
  · exact ⟨hlen, hidx, hsum⟩

lemma TouchPin.reach_inv (s : TouchPin) (h : TouchPin.Reach s) : TouchPin.Inv s := by
  induction h with
  | init pin sample_period => exact TouchPin.inv_init pin sample_period
  | initSel pin sample_period select_line => exact TouchPin.inv_initSel pin sample_period select_line
  | step s now raw _ ih => exact TouchPin.inv_update s now raw ih
  | setThreshold s t _ ih => exact ih

/-- C1: for every sequence of raw readings fed through TouchPin::update
(starting from either constructor, with the ring buffer zero-filled), the
running sum field equals the exact arithmetic sum of the current
ring-buffer contents at all times. -/
theorem runningSum_eq_buffer_sum (s : TouchPin) (h : TouchPin.Reach s) :
    s.sum = s.samples.sum :=
  (TouchPin.reach_inv s h).2.2

/-- C1 witness: the invariant evaluated on a concrete reachable state, one
sample of 6000 after construction. -/
theorem runningSum_eq_buffer_sum_witness :
    ((TouchPin.update (TouchPin.init 0 1000) 2000 6000).1).sum =
      ((TouchPin.update (TouchPin.init 0 1000) 2000 6000).1).samples.sum :=
  runningSum_eq_buffer_sum _ (TouchPin.Reach.step _ 2000 6000 (TouchPin.Reach.init 0 1000))

/-- C6: value() returns the running sum divided by the buffer size N = 10
with truncating (Nat) division, for every sensor state. -/
theorem value_eq_sum_div_ten (s : TouchPin) :
    TouchPin.value s = s.sum / 10 ∧ SAMPLE_BUFFER_SIZE = 10 :=
  ⟨rfl, rfl⟩

/-- A sensor state holding ten constant readings of 6000, produced by
feeding ten due samples of 6000 through update after construction. -/
def pinTen6000 : TouchPin :=
  (List.range 10).foldl
    (fun s k => (TouchPin.update s (2000 * (k + 1)) 6000).1)
    (TouchPin.init 0 1000)

/-- C7: touching() is true exactly when value() strictly exceeds the
current touch threshold (single threshold, no hysteresis band); and in the
concrete scenario of a 10-sample buffer of constant reading 6000 with the
default threshold 5000, value() is 6000 and touching() is true. -/
theorem touching_iff_value_gt_threshold :
    (∀ s : TouchPin, TouchPin.touching s = true ↔ TouchPin.value s > s.touch_threshold) ∧
    pinTen6000.samples = List.replicate 10 6000 ∧
    pinTen6000.touch_threshold = 5000 ∧
    TouchPin.value pinTen6000 = 6000 ∧
    TouchPin.touching pinTen6000 = true := by
  refine ⟨?_, by decide, by decide, by decide, by decide⟩
  intro s
  simp [TouchPin.touching]

/-- C8: when now is not strictly greater than lastSampleTimeMs plus
samplePeriodMs, update is a no-op: the state is returned unchanged in every
field and the external read is not requested (Bool result false), so
repeated calls within one sample period are idempotent. -/
theorem update_noop_within_period (s : TouchPin) (now raw : Nat)
    (h : ¬ now > s.last_sample_time + s.sample_period) :
    TouchPin.update s now raw = (s, false) := by
  unfold TouchPin.update
  simp [h]

/-- C8 witness: a concrete call before the sample period has elapsed. -/
theorem update_noop_within_period_witness :
    TouchPin.update (TouchPin.init 0 1000) 900 7 = (TouchPin.init 0 1000, false) :=
  update_noop_within_period (TouchPin.init 0 1000) 900 7 (by decide)

/-- Events emitted by one HarpString::update call: note_on() and note_off()
forward to usbMIDI with the configured note, velocity 100, channel 1; diag
is the default-branch diagnostic print. -/
inductive Ev where
  | noteOn (note velocity channel : Nat)
  | noteOff (note velocity channel : Nat)
  | diag
  deriving DecidableEq

/-- Whether an event is a note event (rather than the diagnostic). -/
def Ev.isNote : Ev → Bool
  | Ev.noteOn _ _ _ => true
  | Ev.noteOff _ _ _ => true
  | Ev.diag => false

/-- State of one HarpString object: the inherited TouchPin state plus the
data members of class HarpString. -/
structure HarpString where
  pin : TouchPin
  state : Nat
  on_time : Nat
  midi_note : Nat
  duration : Nat
  deriving DecidableEq

/-- HarpString::HarpString(int, unsigned long): delegates to the TouchPin
constructor; the in-class initializers set the remaining members. -/
def HarpString.init (pin : Int) (sample_period : Nat) : HarpString :=
  { pin := TouchPin.init pin sample_period
    state := STATE_IDLE
    on_time := 0
    midi_note := 0
    duration := DEFAULT_STRING_VIBRATION_DURATION }

/-- HarpString::HarpString(int, unsigned long, unsigned int). -/
def HarpString.initSel (pin : Int) (sample_period : Nat) (select_line : Nat) : HarpString :=
  { pin := TouchPin.initSel pin sample_period select_line
    state := STATE_IDLE
    on_time := 0
    midi_note := 0
    duration := DEFAULT_STRING_VIBRATION_DURATION }

/-- HarpString::update(): first delegates to TouchPin::update (where the
pin is actually read), then runs the switch on _state using touching() and
millis(); `now` models millis() and `raw` the raw reading available at
this tick. Returns the new state and the emitted events. -/
def HarpString.update (hs : HarpString) (now raw : Nat) : HarpString × List Ev :=
  let p := (TouchPin.update hs.pin now raw).1
  if hs.state = STATE_IDLE then
    if TouchPin.touching p then
      ({ hs with pin := p, state := STATE_ARMED }, [])
    else
      ({ hs with pin := p }, [])
  else if hs.state = STATE_ARMED then
    if !TouchPin.touching p then
      ({ hs with pin := p, state := STATE_SOUNDING, on_time := now },
        [Ev.noteOn hs.midi_note 100 1])
    else
      ({ hs with pin := p }, [])
  else if hs.state = STATE_SOUNDING then
    if TouchPin.touching p then
      ({ hs with pin := p, state := STATE_ARMED }, [Ev.noteOff hs.midi_note 100 1])
    else if now - hs.on_time > hs.duration then
      ({ hs with pin := p, state := STATE_IDLE, on_time := 0 },
        [Ev.noteOff hs.midi_note 100 1])
    else
      ({ hs with pin := p }, [])
  else
    ({ hs with pin := p }, [Ev.diag])

/-- HarpString::set_midi_note(byte). -/
def HarpString.set_midi_note (hs : HarpString) (midi_note : Nat) : HarpString :=
  { hs with midi_note := midi_note }

/-- HarpString::set_duration(unsigned long). -/
def HarpString.set_duration (hs : HarpString) (duration : Nat) : HarpString :=
  { hs with duration := duration }

/-- Inherited TouchPin::set_touch_threshold applied to a HarpString. -/
def HarpString.set_touch_threshold (hs : HarpString) (t : Nat) : HarpString :=
  { hs with pin := TouchPin.set_touch_threshold hs.pin t }

/-- The HarpString states reachable from a constructor by any interleaving
of update calls (arbitrary clock values and raw readings) and the
configuration setters. -/
inductive HarpString.Reach : HarpString → Prop where
  | init (pin : Int) (sample_period : Nat) :
      HarpString.Reach (HarpString.init pin sample_period)
  | initSel (pin : Int) (sample_period : Nat) (select_line : Nat) :
      HarpString.Reach (HarpString.initSel pin sample_period select_line)
  | step (hs : HarpString) (now raw : Nat) :
      HarpString.Reach hs → HarpString.Reach (HarpString.update hs now raw).1
  | setNote (hs : HarpString) (n : Nat) :
      HarpString.Reach hs → HarpString.Reach (HarpString.set_midi_note hs n)
  | setDuration (hs : HarpString) (d : Nat) :
      HarpString.Reach hs → HarpString.Reach (HarpString.set_duration hs d)
  | setThreshold (hs : HarpString) (t : Nat) :
      HarpString.Reach hs → HarpString.Reach (HarpString.set_touch_threshold hs t)

/-- C4: from the Armed state, update emits a note-on exactly when the
sensor reports not-touched at that tick (the pluck fires on release): on
release it emits exactly one note-on, sets the timestamp to the current
time and moves to Sounding; while still touched it changes nothing but the
sensor and emits nothing. -/
theorem armed_release_emits_note_on (hs : HarpString) (now raw : Nat)
    (h : hs.state = STATE_ARMED) :
    (TouchPin.touching (TouchPin.update hs.pin now raw).1 = false →
      HarpString.update hs now raw =
        ({ hs with
            pin := (TouchPin.update hs.pin now raw).1
            state := STATE_SOUNDING
            on_time := now },
         [Ev.noteOn hs.midi_note 100 1])) ∧
    (TouchPin.touching (TouchPin.update hs.pin now raw).1 = true →
      HarpString.update hs now raw =
        ({ hs with pin := (TouchPin.update hs.pin now raw).1 }, [])) := by
  constructor <;> intro ht <;>
    simp [HarpString.update, h, ht, STATE_IDLE, STATE_ARMED, STATE_SOUNDING]

/-- A concrete Armed state: one sample of raw reading 60000 after
construction arms the string. -/
def hsArmed : HarpString :=
  (HarpString.update (HarpString.init 0 1000) 2000 60000).1

/-- C4 witness: the Armed-state theorem evaluated at hsArmed with a call
inside the sample period (sensor still touched, so no note-on). -/
theorem armed_release_emits_note_on_witness :
    (TouchPin.touching (TouchPin.update hsArmed.pin 2500 0).1 = false →
      HarpString.update hsArmed 2500 0 =
        ({ hsArmed with
            pin := (TouchPin.update hsArmed.pin 2500 0).1
            state := STATE_SOUNDING
            on_time := 2500 },
         [Ev.noteOn hsArmed.midi_note 100 1])) ∧
    (TouchPin.touching (TouchPin.update hsArmed.pin 2500 0).1 = true →
      HarpString.update hsArmed 2500 0 =
        ({ hsArmed with pin := (TouchPin.update hsArmed.pin 2500 0).1 }, [])) :=
  armed_release_emits_note_on hsArmed 2500 0 (by decide)

/-- C5: from the Sounding state, a re-touch (sensor touched at this tick)
emits exactly one note-off, moves to Armed, and leaves the note-on
timestamp unchanged; no note-on is emitted. -/
theorem sounding_retouch_rearms (hs : HarpString) (now raw : Nat)
    (h : hs.state = STATE_SOUNDING)
    (ht : TouchPin.touching (TouchPin.update hs.pin now raw).1 = true) :
    HarpString.update hs now raw =
      ({ hs with pin := (TouchPin.update hs.pin now raw).1, state := STATE_ARMED },
       [Ev.noteOff hs.midi_note 100 1]) ∧
    (HarpString.update hs now raw).1.on_time = hs.on_time := by
  constructor <;>
    simp [HarpString.update, h, ht, STATE_IDLE, STATE_ARMED, STATE_SOUNDING]

/-- A concrete Sounding state whose sensor is touched: the buffer holds
ten readings of 6000 against the default threshold 5000. -/
def hsSoundingTouched : HarpString :=
  { HarpString.init 0 1000 with state := STATE_SOUNDING, on_time := 1000, pin := pinTen6000 }

/-- C5 witness: re-touch at a tick before the duration elapses. -/
theorem sounding_retouch_rearms_witness :
    HarpString.update hsSoundingTouched 20500 0 =
      ({ hsSoundingTouched with
          pin := (TouchPin.update hsSoundingTouched.pin 20500 0).1
          state := STATE_ARMED },
       [Ev.noteOff hsSoundingTouched.midi_note 100 1]) ∧
    (HarpString.update hsSoundingTouched 20500 0).1.on_time = hsSoundingTouched.on_time :=
  sounding_retouch_rearms hsSoundingTouched 20500 0 (by decide) (by decide)

/-- C3: in the Sounding state with the sensor not touched, update moves to
Idle exactly when the elapsed time strictly exceeds the sustain duration;
when it does not exceed it (boundary equality included) the string fields
are unchanged and nothing is emitted, and when it does, exactly one
note-off is emitted, the timestamp is reset to 0 and the state becomes
Idle. -/
theorem sounding_timeout_strict (hs : HarpString) (now raw : Nat)
    (h : hs.state = STATE_SOUNDING)
    (ht : TouchPin.touching (TouchPin.update hs.pin now raw).1 = false) :
    ((HarpString.update hs now raw).1.state = STATE_IDLE ↔ now - hs.on_time > hs.duration) ∧
    (¬ now - hs.on_time > hs.duration →
      HarpString.update hs now raw =
        ({ hs with pin := (TouchPin.update hs.pin now raw).1 }, [])) ∧
    (now - hs.on_time > hs.duration →
      HarpString.update hs now raw =
        ({ hs with
            pin := (TouchPin.update hs.pin now raw).1
            state := STATE_IDLE
            on_time := 0 },
         [Ev.noteOff hs.midi_note 100 1])) := by
  by_cases hd : now - hs.on_time > hs.duration <;>
    refine ⟨?_, ?_, ?_⟩ <;>
      simp [HarpString.update, h, ht, hd, STATE_IDLE, STATE_ARMED, STATE_SOUNDING]

/-- A concrete Sounding state matching the spec scenario: note triggered
at time 1000, sustain duration 2000, sensor untouched (zero buffer). -/
def hsSustain : HarpString :=
  { HarpString.init 0 1000 with state := STATE_SOUNDING, on_time := 1000 }

/-- C3 witness: at now = 3000 the elapsed time equals the duration and
nothing happens; at now = 3001 the string goes Idle with one note-off and
the timestamp reset to 0. -/
theorem sounding_timeout_strict_witness :
    (HarpString.update hsSustain 3000 0).1.state ≠ STATE_IDLE ∧
    (HarpString.update hsSustain 3000 0).2 = [] ∧
    (HarpString.update hsSustain 3001 0).1.state = STATE_IDLE ∧
    (HarpString.update hsSustain 3001 0).1.on_time = 0 ∧
    (HarpString.update hsSustain 3001 0).2 = [Ev.noteOff 0 100 1] := by
  have h1 := sounding_timeout_strict hsSustain 3000 0 (by decide) (by decide)
  have h2 := sounding_timeout_strict hsSustain 3001 0 (by decide) (by decide)
  refine ⟨?_, ?_, ?_, ?_, ?_⟩
  · intro hc
    exact absurd (h1.1.mp hc) (by decide)
  · rw [h1.2.1 (by decide)]
  · exact h2.1.mpr (by decide)
  · rw [h2.2.2 (by decide)]
  · rw [h2.2.2 (by decide)]
    decide

/-- C9: one update call emits at most one note event, whatever the state,
the reading and the clock (in particular note-on and note-off are never
both emitted; when re-touch and timeout hold together in Sounding only the
re-touch branch fires, with its single note-off). -/
theorem update_emits_at_most_one_note (hs : HarpString) (now raw : Nat) :
    ((HarpString.update hs now raw).2.filter Ev.isNote).length ≤ 1 := by
  simp only [HarpString.update]
  split_ifs <;> simp [Ev.isNote]

/-- The state field only holds one of the three STATE_* values. -/
def HarpString.StateInv (hs : HarpString) : Prop :=
  hs.state = STATE_IDLE ∨ hs.state = STATE_ARMED ∨ hs.state = STATE_SOUNDING

lemma HarpString.state_inv_update (hs : HarpString) (now raw : Nat)
    (h : HarpString.StateInv hs) :
    HarpString.StateInv (HarpString.update hs now raw).1 := by
  unfold HarpString.StateInv at *
  simp only [HarpString.update]
  split_ifs <;> simp_all

lemma HarpString.reach_state_inv (hs : HarpString) (h : HarpString.Reach hs) :
    HarpString.StateInv hs := by
  induction h with
  | init pin sample_period =>
      exact Or.inl rfl
  | initSel pin sample_period select_line =>
      exact Or.inl rfl
  | step hs now raw _ ih =>
      exact HarpString.state_inv_update hs now raw ih
  | setNote hs n _ ih => exact ih
  | setDuration hs d _ ih => exact ih
  | setThreshold hs t _ ih => exact ih

/-- C10: every reachable HarpString state has its state field equal to
STATE_IDLE, STATE_ARMED or STATE_SOUNDING, and therefore no update call
from a reachable state ever executes the default diagnostic branch. -/
theorem state_in_range_and_no_diag (hs : HarpString) (now raw : Nat)
    (h : HarpString.Reach hs) :
    (hs.state = STATE_IDLE ∨ hs.state = STATE_ARMED ∨ hs.state = STATE_SOUNDING) ∧
    Ev.diag ∉ (HarpString.update hs now raw).2 := by
  have hinv := HarpString.reach_state_inv hs h
  refine ⟨hinv, ?_⟩
  simp only [HarpString.update]
  unfold HarpString.StateInv at hinv
  split_ifs <;> simp_all

/-- C10 witness: the reachable state hsArmed, evaluated at one concrete
tick. -/
theorem state_in_range_and_no_diag_witness :
    (hsArmed.state = STATE_IDLE ∨ hsArmed.state = STATE_ARMED ∨
      hsArmed.state = STATE_SOUNDING) ∧
    Ev.diag ∉ (HarpString.update hsArmed 2500 0).2 :=
  state_in_range_and_no_diag hsArmed 2500 0
    (HarpString.Reach.step (HarpString.init 0 1000) 2000 60000
      (HarpString.Reach.init 0 1000))

/-- Iterates HarpString::update over a list of (millis, raw reading)
pairs. -/
def runUpdates (hs : HarpString) (l : List (Nat × Nat)) : HarpString :=
  l.foldl (fun s p => (HarpString.update s p.1 p.2).1) hs

lemma reach_runUpdates (hs : HarpString) (l : List (Nat × Nat))
    (h : HarpString.Reach hs) : HarpString.Reach (runUpdates hs l) := by
  induction l generalizing hs with
  | nil => exact h
  | cons p t ih => exact ih ((HarpString.update hs p.1 p.2).1) (HarpString.Reach.step hs p.1 p.2 h)

/-- A run that arms the string with one high reading, flushes the high
reading out of the ring buffer with zeros (releasing while Armed, which
triggers the note-on at time 22000), then re-touches while Sounding. -/
def c2trace : List (Nat × Nat) :=
  [(2000, 60000), (4000, 0), (6000, 0), (8000, 0), (10000, 0), (12000, 0),
   (14000, 0), (16000, 0), (18000, 0), (20000, 0), (22000, 0), (24000, 60000)]

/-- The state reached after c2trace: Armed with on_time still 22000. -/
def c2state : HarpString := runUpdates (HarpString.init 0 1000) c2trace

/-- C2 counterexample: a reachable state (reached through the re-touch
transition Sounding to Armed) whose state is not Sounding while its
note-on timestamp is nonzero, refuting the claim that the timestamp is 0
whenever the state is not Sounding. -/
theorem on_time_zero_outside_sounding_cex :
    HarpString.Reach c2state ∧ c2state.state ≠ STATE_SOUNDING ∧ c2state.on_time ≠ 0 :=
  ⟨reach_runUpdates (HarpString.init 0 1000) c2trace (HarpString.Reach.init 0 1000),
    by decide, by decide⟩

lemma HarpString.idle_on_time_update (hs : HarpString) (now raw : Nat)
    (h : hs.state = STATE_IDLE → hs.on_time = 0) :
    (HarpString.update hs now raw).1.state = STATE_IDLE →
      (HarpString.update hs now raw).1.on_time = 0 := by
  simp only [HarpString.update]
  split_ifs <;> simp_all [STATE_IDLE, STATE_ARMED, STATE_SOUNDING]

/-- C2 amended: in every reachable HarpString state, whenever the state is
Idle the note-on timestamp is 0; this holds after construction and is
preserved by every update and setter call. The re-touch transition
Sounding to Armed retains the old timestamp, so the zero-timestamp
property covers Idle only, not every non-Sounding state. -/
theorem on_time_zero_in_idle (hs : HarpString) (h : HarpString.Reach hs) :
    hs.state = STATE_IDLE → hs.on_time = 0 := by
  induction h with
  | init pin sample_period => intro _; rfl
  | initSel pin sample_period select_line => intro _; rfl
  | step hs now raw _ ih => exact HarpString.idle_on_time_update hs now raw ih
  | setNote hs n _ ih => exact ih
  | setDuration hs d _ ih => exact ih
  | setThreshold hs t _ ih => exact ih

/-- C2 amended witness: the freshly constructed string is Idle with a zero
timestamp. -/
theorem on_time_zero_in_idle_witness :
    (HarpString.init 0 1000).on_time = 0 :=
  on_time_zero_in_idle (HarpString.init 0 1000) (HarpString.Reach.init 0 1000) rfl

end TouchHarp
